import Mathlib

/-!
Verification development for the `whoosh` fan-control daemon.

The Rust sources (`src/main.rs`, `src/config.rs`, `src/fan.rs`, `src/error.rs`)
are shallowly embedded below.  Machine integers are modelled as `Nat`/`Int`
with explicit two's-complement wrapping (`wrap8`, `wrapI32`) at the points
where the Rust code performs fixed-width arithmetic; this follows the
behaviour of a release build, where integer overflow wraps.  Rust's
truncating division on signed integers is `Int.tdiv`.  File-system state is
an explicit record of files and directory listings, threaded through the
operations that the daemon performs on sysfs.  `HashMap`s from the source
are modelled as association lists whose order is the map's iteration order;
for Rust's `std::collections::HashMap` that iteration order is arbitrary
(randomised per process) and in particular unrelated to declaration order.
-/

/-! ## Fixed-width integer helpers -/

/-- Two's-complement truncation of an integer to `u8`, as produced by
Rust's `as u8` cast and by wrapping `u8` arithmetic in a release build. -/
def wrap8 (n : Int) : Nat := (n % 256).toNat

/-- Two's-complement wrap of an integer into the `i32` range, as produced by
wrapping `i32` arithmetic in a release build. -/
def wrapI32 (n : Int) : Int := (n + 2 ^ 31) % 2 ^ 32 - 2 ^ 31

/-! ## String utilities (models of the Rust `str` methods used by whoosh)

Lean's own `String` functions are implemented on byte positions and do not
reduce well in the kernel, so the Rust string operations are modelled
directly on `List Char` and wrapped into `String` at the boundaries. -/

/-- Whitespace as recognised by Rust's `str::trim` (restricted to the ASCII
whitespace that can actually appear in the sysfs text handled here). -/
def rustIsWs (c : Char) : Bool := c = ' ' || c = '\t' || c = '\n' || c = '\r'

/-- Model of Rust `str::trim`: remove leading and trailing whitespace. -/
def rustTrim (s : String) : String :=
  ⟨((s.data.dropWhile rustIsWs).reverse.dropWhile rustIsWs).reverse⟩

/-- Segments of a character list split at a separator character; models
Rust's `str::split(sep)` (which always yields at least one segment). -/
def splitOnCharAux (sep : Char) : List Char → List Char → List (List Char)
  | [], acc => [acc.reverse]
  | c :: rest, acc =>
    if c = sep then acc.reverse :: splitOnCharAux sep rest []
    else splitOnCharAux sep rest (c :: acc)

/-- Model of Rust `str::split(sep)` collected into a list. -/
def rustSplit (sep : Char) (s : String) : List String :=
  (splitOnCharAux sep s.data []).map String.mk

/-- Model of Rust `str::starts_with` for string patterns. -/
def rustStartsWith (p s : String) : Bool := p.data.isPrefixOf s.data

/-- Model of Rust `str::ends_with` for string patterns. -/
def rustEndsWith (p s : String) : Bool := p.data.reverse.isPrefixOf s.data.reverse

/-- Drop one occurrence of a prefix, if present. -/
def dropPrefixOnce (p l : List Char) : Option (List Char) :=
  if p.isPrefixOf l then some (l.drop p.length) else none

/-- Fuelled repeated prefix removal. -/
def stripPrefixRepAux (p : List Char) : Nat → List Char → List Char
  | 0, l => l
  | fuel + 1, l =>
    match dropPrefixOnce p l with
    | some l' => if p.isEmpty then l else stripPrefixRepAux p fuel l'
    | none => l

/-- Model of Rust `str::trim_start_matches(pat)`: repeatedly remove the
pattern from the front. -/
def rustTrimStartMatches (p s : String) : String :=
  ⟨stripPrefixRepAux p.data s.data.length s.data⟩

/-- Model of Rust `str::trim_end_matches(pat)`: repeatedly remove the
pattern from the back. -/
def rustTrimEndMatches (p s : String) : String :=
  ⟨(stripPrefixRepAux p.data.reverse s.data.length s.data.reverse).reverse⟩

/-- Numeric value of a decimal digit. -/
def digitVal (c : Char) : Option Nat :=
  if c.isDigit then some (c.toNat - '0'.toNat) else none

/-- Value of a non-empty all-digit character list. -/
def digitsToNat : List Char → Option Nat
  | [] => none
  | l => go l 0
where
  go : List Char → Nat → Option Nat
    | [], acc => some acc
    | c :: rest, acc =>
      match digitVal c with
      | some d => go rest (acc * 10 + d)
      | none => none

/-- Model of Rust's unsigned integer parsing (`str::parse::<uN>`): optional
leading `+`, then decimal digits, with a range check against `bound`. -/
def parseNatBounded (bound : Nat) (s : String) : Option Nat :=
  let l := match s.data with
    | '+' :: rest => rest
    | l => l
  match digitsToNat l with
  | some v => if v < bound then some v else none
  | none => none

/-- Model of Rust `str::parse::<u8>`. -/
def parseU8 (s : String) : Option Nat := parseNatBounded (2 ^ 8) s

/-- Model of Rust `str::parse::<usize>` (64-bit target). -/
def parseUsize (s : String) : Option Nat := parseNatBounded (2 ^ 64) s

/-- Model of Rust `str::parse::<i32>`: optional sign, then decimal digits,
with an `i32` range check. -/
def parseI32 (s : String) : Option Int :=
  match s.data with
  | '-' :: rest =>
    match digitsToNat rest with
    | some v => if (v : Int) ≤ 2 ^ 31 then some (-(v : Int)) else none
    | none => none
  | '+' :: rest =>
    match digitsToNat rest with
    | some v => if v < 2 ^ 31 then some (v : Int) else none
    | none => none
  | _ =>
    match digitsToNat s.data with
    | some v => if v < 2 ^ 31 then some (v : Int) else none
    | none => none

/-! ## Data model: points and curves (`main.rs`, `struct Point`) -/

/-- `struct Point { temp: i32, fan_speed: u8 }` from `main.rs`. -/
structure Point where
  temp : Int
  fan_speed : Nat
  deriving Repr, DecidableEq

/-- The window scan from `curve_lerp` in `main.rs`: walk consecutive pairs
(`curve.windows(2)`) and return the first pair bracketing `temp`. -/
def findWin (temp : Int) : List Point → Option (Point × Point)
  | lower :: upper :: rest =>
    if lower.temp ≤ temp ∧ temp < upper.temp then some (lower, upper)
    else findWin temp (upper :: rest)
  | _ => none

/-- Interpolation inside one window, exactly as computed by `curve_lerp`:
`u8` subtraction of the fan speeds (wrapping in a release build), `i32`
subtraction of the temperatures, truncating `isize` division, and the final
`as u8` cast. -/
def lerpWindow (temp : Int) (lower upper : Point) : Nat :=
  let normalised_temp := wrapI32 (temp - lower.temp)
  let upscale_factor := ((upper.fan_speed : Int) - (lower.fan_speed : Int)) % 256
  let downscale_factor := wrapI32 (upper.temp - lower.temp)
  wrap8 ((normalised_temp * upscale_factor).tdiv downscale_factor + (lower.fan_speed : Int))

/-- Last point of a non-empty curve (`curve[curve.len() - 1]`). -/
def lastPoint (p : Point) : List Point → Point
  | [] => p
  | q :: rest => lastPoint q rest

/-- `fn curve_lerp(temp: i32, curve: &[Point]) -> u8` from `main.rs`.
Indexing an empty slice panics, modelled by `none`. -/
def curve_lerp (temp : Int) (curve : List Point) : Option Nat :=
  match curve with
  | [] => none
  | p0 :: rest =>
    if temp < p0.temp then some p0.fan_speed
    else
      match findWin temp (p0 :: rest) with
      | some (lower, upper) => some (lerpWindow temp lower upper)
      | none => some (lastPoint p0 rest).fan_speed

/-- Modelled from the spec: the interpolation formula of §4.3, in exact
integer arithmetic with division truncating toward zero. -/
def spec_window (temp : Int) (lower upper : Point) : Int :=
  (lower.fan_speed : Int) +
    ((temp - lower.temp) * ((upper.fan_speed : Int) - (lower.fan_speed : Int))).tdiv
      (upper.temp - lower.temp)

/-- A predicate holding between every pair of consecutive points. -/
def consecOk (R : Point → Point → Bool) : List Point → Bool
  | [] => true
  | [_] => true
  | p :: q :: rest => R p q && consecOk R (q :: rest)

/-- The data-model invariant on curve temperatures: strictly increasing. -/
def sortedTemps : List Point → Bool :=
  consecOk fun p q => decide (p.temp < q.temp)

/-- Non-decreasing fan speeds along the curve. -/
def monoPwm : List Point → Bool :=
  consecOk fun p q => decide (p.fan_speed ≤ q.fan_speed)

/-- Strictly increasing fan speeds along the curve. -/
def strictPwm : List Point → Bool :=
  consecOk fun p q => decide (p.fan_speed < q.fan_speed)

/-- Consecutive temperature gaps fit in `i32` (no wrap in the window
arithmetic). -/
def spansOk : List Point → Bool :=
  consecOk fun p q => decide (q.temp - p.temp < 2 ^ 31)

/-- All fan speeds are `u8` values. -/
def pwmBounded (curve : List Point) : Bool :=
  curve.all fun p => decide (p.fan_speed < 256)

/-! ## Errors (`error.rs`) -/

/-- `enum Error` from `error.rs` (the payloads of the parse-error and I/O
variants are dropped). -/
inductive Error
  | hwmonNameNotFound (name : String)
  | hwmonSensorNotFound
  | invalidPointSpec
  | invalidReading
  | invalidMode
  | invalidSpeed
  | toml
  | io
  deriving Repr, DecidableEq

/-! ## File-system model (sysfs) -/

/-- Explicit file-system state: text files and directory listings.  Writes
succeed only on existing files, matching sysfs (attribute files cannot be
created). -/
structure FS where
  files : List (String × String)
  dirs : List (String × List String)
  deriving Repr, DecidableEq

/-- Read a file (`std::fs::read_to_string`). -/
def FS.read (fs : FS) (p : String) : Option String := fs.files.lookup p

/-- List a directory (`std::fs::read_dir`), as entry names. -/
def FS.readDir (fs : FS) (p : String) : Option (List String) := fs.dirs.lookup p

/-- Replace the first binding of `p`. -/
def updateAssoc (l : List (String × String)) (p v : String) : List (String × String) :=
  match l with
  | [] => []
  | (k, w) :: rest => if k == p then (k, v) :: rest else (k, w) :: updateAssoc rest p v

/-- Write a file (`std::fs::write`): fails if the file does not exist. -/
def FS.write (fs : FS) (p v : String) : Option FS :=
  if (fs.files.lookup p).isSome then some { fs with files := updateAssoc fs.files p v }
  else none

/-! ## Fan handles (`fan.rs`) -/

/-- `struct ControlledFan` from `fan.rs` (`pwm_path` is the source's
`path_prefix` field, renamed). -/
structure ControlledFan where
  pwm_path : String
  initial_mode : Nat
  deriving Repr, DecidableEq

/-- `ControlledFan::new`: read `{prefix}_enable`, parse the trimmed contents
as `u8` into `initial_mode`, then write `"1\n"` to the same file. -/
def ControlledFan.new (fs : FS) (pwm_path : String) :
    Except Error (ControlledFan × FS) :=
  let enable_path := pwm_path ++ "_enable"
  match fs.read enable_path with
  | none => .error .io
  | some mode_string =>
    match parseU8 (rustTrim mode_string) with
    | none => .error .invalidMode
    | some initial_mode =>
      match fs.write enable_path "1\n" with
      | none => .error .io
      | some fs' => .ok (⟨pwm_path, initial_mode⟩, fs')

/-- `ControlledFan::get_speed`: read and parse `{prefix}` as `u8`. -/
def ControlledFan.get_speed (f : ControlledFan) (fs : FS) : Except Error Nat :=
  match fs.read f.pwm_path with
  | none => .error .io
  | some speed_string =>
    match parseU8 (rustTrim speed_string) with
    | none => .error .invalidSpeed
    | some speed => .ok speed

/-- `ControlledFan::set_speed`: write `"{v}\n"` to `{prefix}`. -/
def ControlledFan.set_speed (f : ControlledFan) (new_speed : Nat) (fs : FS) :
    Except Error FS :=
  match fs.write f.pwm_path (toString new_speed ++ "\n") with
  | none => .error .io
  | some fs' => .ok fs'

/-- `impl Drop for ControlledFan`: best-effort write of `"{initial_mode}\n"`
to `{prefix}_enable`; a failed write is logged and never propagated, so the
drop is total. -/
def ControlledFan.drop (f : ControlledFan) (fs : FS) : FS :=
  match fs.write (f.pwm_path ++ "_enable") (toString f.initial_mode ++ "\n") with
  | some fs' => fs'
  | none => fs

/-- Drop a list of fan handles in order. -/
def dropFans (fans : List (String × ControlledFan)) (fs : FS) : FS :=
  match fans with
  | [] => fs
  | (_, f) :: rest => dropFans rest (ControlledFan.drop f fs)

/-! ## Configuration (`config.rs`) -/

/-- `enum CompositeMode` from `config.rs`. -/
inductive CompositeMode
  | mean
  | max
  | meanMax (threshold : Int)
  deriving Repr, DecidableEq

/-- `struct Composite` from `config.rs`. -/
structure Composite where
  inputs : List String
  mode : CompositeMode
  deriving Repr, DecidableEq

/-- `enum Sensor` from `config.rs`. -/
inductive Sensor
  | byNameLabel (hwmon_name label : String)
  | byNameIndex (hwmon_name : String) (index : Nat)
  deriving Repr, DecidableEq

/-- `struct FanPath` from `config.rs`. -/
structure FanPath where
  hwmon_name : String
  index : Nat
  deriving Repr, DecidableEq

/-- `struct Fan` from `config.rs` (a fan's configuration entry). -/
structure Fan where
  path : FanPath
  input : String
  curve : String
  deriving Repr, DecidableEq

/-- `struct Config` from `config.rs`.  The `HashMap` tables are modelled as
association lists in the map's iteration order; for
`std::collections::HashMap` that order is arbitrary (randomised per
process) and unrelated to the declaration order of the configuration
source. -/
structure Config where
  poll_period : Nat
  min_change : Nat
  max_change : Nat
  sensors : List (String × Sensor)
  composites : List (String × Composite)
  curves : List (String × List String)
  fans : List (String × Fan)
  deriving Repr, DecidableEq

/-- One `"<int>C/<int>%"` point from `Config::parse_curves`: split on `/`,
strip trailing `C`s from the first field and `%`s from the second, parse
both as `i32`, and convert to milli-degrees and the 0-255 scale (`i32`
arithmetic, truncating division, final `as u8` cast). -/
def parse_point (point_spec : String) : Except Error Point :=
  match rustSplit '/' point_spec with
  | [] => .error .invalidPointSpec
  | tempStr :: rest =>
    match parseI32 (rustTrimEndMatches "C" tempStr) with
    | none => .error .invalidPointSpec
    | some temp =>
      match rest with
      | [] => .error .invalidPointSpec
      | fanStr :: _ =>
        match parseI32 (rustTrimEndMatches "%" fanStr) with
        | none => .error .invalidPointSpec
        | some fan_percent =>
          .ok ⟨wrapI32 (temp * 1000), wrap8 ((wrapI32 (fan_percent * 255)).tdiv 100)⟩

/-- Parse one curve's list of point specs, in order. -/
def parse_curve_points (curve_spec : List String) : Except Error (List Point) :=
  match curve_spec with
  | [] => .ok []
  | spec :: rest =>
    match parse_point spec with
    | .error e => .error e
    | .ok p =>
      match parse_curve_points rest with
      | .error e => .error e
      | .ok ps => .ok (p :: ps)

/-- `Config::parse_curves`. -/
def parse_curves (curves : List (String × List String)) :
    Except Error (List (String × List Point)) :=
  match curves with
  | [] => .ok []
  | (name, curve_spec) :: rest =>
    match parse_curve_points curve_spec with
    | .error e => .error e
    | .ok curve =>
      match parse_curves rest with
      | .error e => .error e
      | .ok m => .ok ((name, curve) :: m)

/-! ## Discovery (`config.rs`: `find_sensors`, `find_fans`) -/

/-- Outcome of a computation that can fail with an `Error` or abort the
process (`panic!`, `todo!`, `unreachable!`, `unwrap` of `None`). -/
inductive RunResult (α : Type)
  | ok (a : α)
  | err (e : Error)
  | panicked
  deriving Repr, DecidableEq

/-- `hwmon_names.iter().enumerate().find(|(_, name)| *name == hwmon_name)`. -/
def findIndex (names : List String) (target : String) : Option Nat :=
  go names 0
where
  go : List String → Nat → Option Nat
    | [], _ => none
    | n :: rest, i => if n == target then some i else go rest (i + 1)

/-- Path `/sys/class/hwmon/hwmonI/`. -/
def hwmonDirPath (i : Nat) : String := "/sys/class/hwmon/hwmon" ++ toString i ++ "/"

/-- Path `/sys/class/hwmon/hwmonI/tempN_input`. -/
def tempInputPath (i n : Nat) : String :=
  "/sys/class/hwmon/hwmon" ++ toString i ++ "/temp" ++ toString n ++ "_input"

/-- Path `/sys/class/hwmon/hwmonI/pwmN`. -/
def pwmPath (i n : Nat) : String :=
  "/sys/class/hwmon/hwmon" ++ toString i ++ "/pwm" ++ toString n

/-- The label scan inside `Config::find_sensors`: for each directory entry
named `temp…_label`, read it; when the trimmed contents equal the wanted
label, remember that entry's index (last match wins).  The index is
obtained by `parse().unwrap()`, which panics on a malformed entry name. -/
def scanLabels (fs : FS) (dir label : String) :
    List String → Option Nat → RunResult (Option Nat)
  | [], acc => .ok acc
  | entry :: rest, acc =>
    if rustStartsWith "temp" entry && rustEndsWith "_label" entry then
      match fs.read (dir ++ entry) with
      | none => .err .io
      | some contents =>
        if rustTrim contents == label then
          match parseUsize
              (rustTrimEndMatches "_label" (rustTrimStartMatches "temp" entry)) with
          | none => .panicked
          | some idx => scanLabels fs dir label rest (some idx)
        else scanLabels fs dir label rest acc
    else scanLabels fs dir label rest acc

/-- `Config::find_sensors`: resolve each configured sensor to a
`tempN_input` path.  A label that resolves to no existing input file is the
source's `panic!("sensor has label but no input")`. -/
def find_sensors (fs : FS) (hwmon_names : List String) :
    List (String × Sensor) → RunResult (List (String × String))
  | [] => .ok []
  | (name, sensor) :: rest =>
    match sensor with
    | .byNameLabel hwmon_name label =>
      match findIndex hwmon_names hwmon_name with
      | none => .err (.hwmonNameNotFound hwmon_name)
      | some hwmon_index =>
        match fs.readDir (hwmonDirPath hwmon_index) with
        | none => .err .io
        | some entries =>
          match scanLabels fs (hwmonDirPath hwmon_index) label entries none with
          | .err e => .err e
          | .panicked => .panicked
          | .ok none => .err .hwmonSensorNotFound
          | .ok (some sensor_index) =>
            if (fs.read (tempInputPath hwmon_index sensor_index)).isSome then
              match find_sensors fs hwmon_names rest with
              | .ok m => .ok ((name, tempInputPath hwmon_index sensor_index) :: m)
              | .err e => .err e
              | .panicked => .panicked
            else .panicked
    | .byNameIndex hwmon_name index =>
      match findIndex hwmon_names hwmon_name with
      | none => .err (.hwmonNameNotFound hwmon_name)
      | some hwmon_index =>
        if (fs.read (tempInputPath hwmon_index index)).isSome then
          match find_sensors fs hwmon_names rest with
          | .ok m => .ok ((name, tempInputPath hwmon_index index) :: m)
          | .err e => .err e
          | .panicked => .panicked
        else .err .hwmonSensorNotFound

/-- Outcome of a file-system-mutating step: success and failure both carry
the resulting file system (failure effects matter, because already
constructed fan handles are dropped during unwinding). -/
inductive FsResult (α : Type)
  | ok (a : α) (fs : FS)
  | err (e : Error) (fs : FS)
  | panicked
  deriving Repr, DecidableEq

/-- `Config::find_fans`: resolve each fan's hwmon device and construct its
handle; on a later failure the handles already constructed are dropped as
the partially built map unwinds. -/
def find_fans (fs : FS) (hwmon_names : List String) :
    List (String × Fan) → FsResult (List (String × ControlledFan))
  | [] => .ok [] fs
  | (name, fan) :: rest =>
    match findIndex hwmon_names fan.path.hwmon_name with
    | none => .err (.hwmonNameNotFound fan.path.hwmon_name) fs
    | some hwmon_index =>
      match ControlledFan.new fs (pwmPath hwmon_index fan.path.index) with
      | .error e => .err e fs
      | .ok (handle, fs') =>
        match find_fans fs' hwmon_names rest with
        | .ok m fs'' => .ok ((name, handle) :: m) fs''
        | .err e fs'' => .err e (ControlledFan.drop handle fs'')
        | .panicked => .panicked

/-! ## Daemon state (`main.rs`, `struct State`) -/

/-- The hwmon name post-processing in `State::new`:
`name.truncate(name.len() - 1)` removes exactly the final character.  (In a
release build an empty string is left unchanged: `0usize - 1` wraps and
`truncate` never lengthens.) -/
def processHwmonName (s : String) : String := ⟨s.data.dropLast⟩

/-- Reading `/sys/class/hwmon/hwmonI/name` for `I` in `0..n`, collected as
by `collect::<Result<Vec<_>, _>>()`. -/
def readHwmonNames (fs : FS) (n : Nat) : Except Error (List String) :=
  go 0 n
where
  go : Nat → Nat → Except Error (List String)
    | _, 0 => .ok []
    | i, k + 1 =>
      match fs.read ("/sys/class/hwmon/hwmon" ++ toString i ++ "/name") with
      | none => .error .io
      | some s =>
        match go (i + 1) k with
        | .error e => .error e
        | .ok rest => .ok (s :: rest)

/-- `struct State` from `main.rs`. -/
structure State where
  config : Config
  sensor_paths : List (String × String)
  fans : List (String × ControlledFan)
  curves : List (String × List Point)
  min_change : Int
  max_change : Int
  deriving Repr, DecidableEq

/-- The percent-to-0-255 conversion in `State::new`
(`config.min_change as isize * 255 / 100`). -/
def state_thresh (pct : Nat) : Int := ((pct : Int) * 255).tdiv 100

/-- `State::new` from `main.rs`: enumerate hwmons, read and chop their
names, resolve sensors and fans, parse curves, convert the thresholds. -/
def State.new (fs : FS) (config : Config) : FsResult State :=
  match fs.readDir "/sys/class/hwmon" with
  | none => .err .io fs
  | some entries =>
    match readHwmonNames fs entries.length with
    | .error e => .err e fs
    | .ok raw_names =>
      let hwmon_names := raw_names.map processHwmonName
      match find_sensors fs hwmon_names config.sensors with
      | .err e => .err e fs
      | .panicked => .panicked
      | .ok sensor_paths =>
        match find_fans fs hwmon_names config.fans with
        | .err e fs' => .err e fs'
        | .panicked => .panicked
        | .ok fans fs' =>
          match parse_curves config.curves with
          | .error e => .err e (dropFans fans fs')
          | .ok curves =>
            .ok { config := config, sensor_paths := sensor_paths, fans := fans,
                  curves := curves,
                  min_change := state_thresh config.min_change,
                  max_change := state_thresh config.max_change } fs'

/-! ## Control-loop tick (`main_loop`, `main.rs`) -/

/-- The sensor-read phase of a tick: read each resolved sensor path, parse
the trimmed contents as `i32`, and insert into the `temps` map (the
accumulator is consed, so later insertions shadow earlier ones exactly as
`HashMap::insert` replaces). -/
def read_sensors (fs : FS) :
    List (String × String) → List (String × Int) → RunResult (List (String × Int))
  | [], temps => .ok temps
  | (name, path) :: rest, temps =>
    match fs.read path with
    | none => .err .io
    | some s =>
      match parseI32 (rustTrim s) with
      | none => .err .invalidReading
      | some temp => read_sensors fs rest ((name, temp) :: temps)

/-- The composite phase of a tick (`main.rs`): for each composite in
iteration order, look up its inputs in `temps` (missing inputs are dropped
with a warning), skip the composite when no input resolves, and otherwise
combine and insert under the composite's name.  Only `Max` is implemented;
`Mean` and `MeanMax` hit `todo!()`, which panics. -/
def evalComposites :
    List (String × Composite) → List (String × Int) → RunResult (List (String × Int))
  | [], temps => .ok temps
  | (name, composite) :: rest, temps =>
    let inputs := composite.inputs.filterMap fun input_name => temps.lookup input_name
    match inputs with
    | [] => evalComposites rest temps
    | x :: xs =>
      match composite.mode with
      | .max => evalComposites rest ((name, xs.foldl max x) :: temps)
      | _ => .panicked

/-- Decision of the per-fan rate limiter. -/
inductive WriteDecision
  | noWrite
  | write (v : Nat)
  | unreachableHit
  deriving Repr, DecidableEq

/-- The delta computation of `main_loop`: skip when the delta does not
exceed `min_change` in absolute value, otherwise clamp it (`Ord::clamp`)
to `max_change` preserving sign and write `current + delta`; a zero sign is
the `unreachable!()` arm. -/
def rate_limit (min_change max_change target current : Int) : WriteDecision :=
  let delta := target - current
  if ¬ (delta > min_change ∨ delta < -min_change) then .noWrite
  else if delta.sign = 1 then .write (wrap8 (current + min (max delta 0) max_change))
  else if delta.sign = -1 then
    .write (wrap8 (current + min (max delta (-max_change)) 0))
  else .unreachableHit

/-- One fan's actuation within a tick (`main.rs`): a missing input or curve
skips the fan with a warning; the `state.fans` lookup is `unwrap`ped (a
panic if absent); then the current speed is read, rate-limited against the
lerp target, and written back when large enough. -/
def fan_tick (st : State) (temps : List (String × Int)) (fs : FS)
    (name : String) (fan_cfg : Fan) : RunResult FS :=
  match temps.lookup fan_cfg.input with
  | none => .ok fs
  | some input_temp =>
    match st.curves.lookup fan_cfg.curve with
    | none => .ok fs
    | some curve =>
      match curve_lerp input_temp curve with
      | none => .panicked
      | some target_speed =>
        match st.fans.lookup name with
        | none => .panicked
        | some fan =>
          match fan.get_speed fs with
          | .error e => .err e
          | .ok current_speed =>
            match rate_limit st.min_change st.max_change
                (target_speed : Int) (current_speed : Int) with
            | .noWrite => .ok fs
            | .unreachableHit => .panicked
            | .write v =>
              match fan.set_speed v fs with
              | .error e => .err e
              | .ok fs' => .ok fs'

/-- The fan loop of a tick, folding `fan_tick` over the configured fans. -/
def fans_tick (st : State) (temps : List (String × Int)) :
    FS → List (String × Fan) → RunResult FS
  | fs, [] => .ok fs
  | fs, (name, fan_cfg) :: rest =>
    match fan_tick st temps fs name fan_cfg with
    | .ok fs' => fans_tick st temps fs' rest
    | r => r

/-- One control-loop tick: read sensors, evaluate composites, drive fans. -/
def tick (st : State) (fs : FS) : RunResult FS :=
  match read_sensors fs st.sensor_paths [] with
  | .err e => .err e
  | .panicked => .panicked
  | .ok temps =>
    match evalComposites st.config.composites temps with
    | .err e => .err e
    | .panicked => .panicked
    | .ok temps' => fans_tick st temps' fs st.config.fans

/-! ## Supervisor (`main_loop`, `main.rs`) -/

/-- Outcome of one iteration of the `main_loop` `while` body. -/
inductive IterOut
  | tickRan (st : State) (reloadAfter : Bool) (res : RunResult FS)
  | skipped (st : State) (reloadAfter : Bool)
  | failed (e : Error)
  | crashed
  deriving Repr, DecidableEq

/-- One iteration of the supervisor loop (`main.rs`), with the result of
`Config::load` supplied as an input (the TOML parser is an external
collaborator per the spec).  On a failed load the code executes `continue`,
which skips both the `reload.store(false)` and the tick.  On a reload the
old handles are dropped (restoring their enable files) before the new
state is built, and a failed build falls back to the old configuration. -/
def supervisor_iter (fs : FS) (load_result : Except Error Config)
    (reload : Bool) (st : State) : IterOut :=
  if reload then
    match load_result with
    | .error _ => .skipped st true
    | .ok new_config =>
      let old_config := st.config
      let fs1 := dropFans st.fans fs
      match State.new fs1 new_config with
      | .ok new_st fs2 => .tickRan new_st false (tick new_st fs2)
      | .panicked => .crashed
      | .err _ fs2 =>
        match State.new fs2 old_config with
        | .ok rev_st fs3 => .tickRan rev_st false (tick rev_st fs3)
        | .err e _ => .failed e
        | .panicked => .crashed
  else .tickRan st reload (tick st fs)

/-- Modelled from the spec: a sysfs read returning the contents with
trailing whitespace trimmed (§4.4, hwmon enumeration). -/
def spec_rtrim (s : String) : String := ⟨(s.data.reverse.dropWhile rustIsWs).reverse⟩

/-- Whether a string has no trailing whitespace character. -/
def noTrailingWs (s : String) : Bool :=
  match s.data.getLast? with
  | none => true
  | some c => ! rustIsWs c

/-! ## Concrete fixtures used by the witnesses -/

/-- A file system for the fan-handle lifecycle: one enable file. -/
def fsC8 : FS := ⟨[("gpu_pwm1_enable", "2\n")], []⟩

/-- `fsC8` after construction wrote `"1\n"`. -/
def fsC8' : FS := ⟨[("gpu_pwm1_enable", "1\n")], []⟩

/-- A one-fan configuration. -/
def cfgC10 : Config :=
  { poll_period := 500, min_change := 5, max_change := 10, sensors := [],
    composites := [], curves := [], fans := [("f1", ⟨⟨"amdgpu", 1⟩, "t", "c"⟩)] }

/-- A sysfs tree with one hwmon device and one pwm channel. -/
def fsC10 : FS :=
  ⟨[("/sys/class/hwmon/hwmon0/name", "amdgpu\n"),
    ("/sys/class/hwmon/hwmon0/pwm1_enable", "2\n"),
    ("/sys/class/hwmon/hwmon0/pwm1", "128\n")],
   [("/sys/class/hwmon", ["hwmon0"])]⟩

/-- `fsC10` after `State::new` asserted manual mode on the pwm channel. -/
def fsC10' : FS :=
  ⟨[("/sys/class/hwmon/hwmon0/name", "amdgpu\n"),
    ("/sys/class/hwmon/hwmon0/pwm1_enable", "1\n"),
    ("/sys/class/hwmon/hwmon0/pwm1", "128\n")],
   [("/sys/class/hwmon", ["hwmon0"])]⟩

/-- The state `State::new fsC10 cfgC10` constructs. -/
def stC10 : State :=
  { config := cfgC10, sensor_paths := [],
    fans := [("f1", ⟨"/sys/class/hwmon/hwmon0/pwm1", 2⟩)], curves := [],
    min_change := 12, max_change := 25 }

/-- A state for the dead-band witness. -/
def stC6 : State :=
  { config := { poll_period := 500, min_change := 5, max_change := 10, sensors := [],
                composites := [], curves := [], fans := [] },
    sensor_paths := [], fans := [("f", ⟨"/p", 2⟩)],
    curves := [("c", [⟨0, 127⟩])], min_change := 12, max_change := 25 }

/-- A file system for the dead-band witness: the pwm file reads `125`. -/
def fsC6 : FS := ⟨[("/p", "125\n")], []⟩

/-! ## Curve lemmas -/

theorem consecOk_tail {R : Point → Point → Bool} {p : Point} {rest : List Point}
    (h : consecOk R (p :: rest) = true) : consecOk R rest = true := by
  cases rest with
  | nil => rfl
  | cons q rest' => exact (Bool.and_eq_true_iff.mp h).2

theorem consecOk_head {R : Point → Point → Bool} {p q : Point} {rest : List Point}
    (h : consecOk R (p :: q :: rest) = true) : R p q = true :=
  (Bool.and_eq_true_iff.mp h).1

theorem consecOk_pair {R : Point → Point → Bool} {l u : Point} :
    ∀ (pre : List Point) {suf : List Point},
      consecOk R (pre ++ l :: u :: suf) = true → R l u = true := by
  intro pre
  induction pre with
  | nil => intro suf h; exact consecOk_head h
  | cons x xs ih => intro suf h; exact ih (consecOk_tail h)

theorem sorted_head_le {x l : Point} {ys : List Point} :
    ∀ (xs : List Point), sortedTemps (x :: xs ++ l :: ys) = true → x.temp ≤ l.temp := by
  intro xs
  induction xs generalizing x with
  | nil =>
    intro h
    have := consecOk_head h
    simp only [decide_eq_true_eq] at this
    omega
  | cons y xs' ih =>
    intro h
    have h1 := consecOk_head h
    simp only [decide_eq_true_eq] at h1
    have h2 := ih (x := y) (consecOk_tail h)
    omega

theorem sorted_le_lastPoint {p : Point} {rest : List Point}
    (h : sortedTemps (p :: rest) = true) : p.temp ≤ (lastPoint p rest).temp := by
  induction rest generalizing p with
  | nil => exact le_refl _
  | cons q rest' ih =>
    have h1 := consecOk_head h
    simp only [decide_eq_true_eq] at h1
    have h2 := ih (consecOk_tail h)
    simp only [lastPoint]
    omega

theorem pwmBounded_tail {p : Point} {rest : List Point}
    (h : pwmBounded (p :: rest) = true) : pwmBounded rest = true := by
  simp only [pwmBounded, List.all_cons, Bool.and_eq_true_iff] at h ⊢
  exact h.2

theorem pwmBounded_mem {curve : List Point} {p : Point}
    (h : pwmBounded curve = true) (hp : p ∈ curve) : p.fan_speed < 256 := by
  simp only [pwmBounded, List.all_eq_true, decide_eq_true_eq] at h
  exact h p hp

theorem strictPwm_mono {curve : List Point}
    (h : strictPwm curve = true) : monoPwm curve = true := by
  induction curve with
  | nil => rfl
  | cons p rest ih =>
    cases rest with
    | nil => rfl
    | cons q rest' =>
      have h1 := consecOk_head h
      simp only [decide_eq_true_eq] at h1
      have h2 := ih (consecOk_tail h)
      simp only [monoPwm, consecOk, Bool.and_eq_true_iff]
      exact ⟨by simp only [decide_eq_true_eq]; omega, h2⟩

theorem wrapI32_eq {n : Int} (h1 : -(2 ^ 31) ≤ n) (h2 : n < 2 ^ 31) : wrapI32 n = n := by
  unfold wrapI32
  rw [Int.emod_eq_of_lt (by omega) (by omega)]
  omega

theorem wrap8_eq {n : Int} (h1 : 0 ≤ n) (h2 : n < 256) : (wrap8 n : Int) = n := by
  unfold wrap8
  rw [Int.emod_eq_of_lt h1 h2]
  exact Int.toNat_of_nonneg h1

/-- In-window evaluation of `lerpWindow` with no fixed-width wrap: the value
equals the exact interpolation formula, and lies between the endpoint fan
speeds. -/
theorem lerpWindow_eval {temp : Int} {l u : Point}
    (h1 : l.temp ≤ temp) (h2 : temp < u.temp)
    (hspan : u.temp - l.temp < 2 ^ 31)
    (hmono : l.fan_speed ≤ u.fan_speed) (hu : u.fan_speed < 256) :
    (lerpWindow temp l u : Int)
        = (temp - l.temp) * ((u.fan_speed : Int) - l.fan_speed) / (u.temp - l.temp)
            + l.fan_speed
      ∧ l.fan_speed ≤ lerpWindow temp l u ∧ lerpWindow temp l u ≤ u.fan_speed := by
  have hl256 : (l.fan_speed : Int) ≤ u.fan_speed := by exact_mod_cast hmono
  have hu256 : (u.fan_speed : Int) < 256 := by exact_mod_cast hu
  have hl0 : (0 : Int) ≤ l.fan_speed := Int.natCast_nonneg _
  have hn0 : (0 : Int) ≤ temp - l.temp := by omega
  have hd0 : (0 : Int) < u.temp - l.temp := by omega
  have hup0 : (0 : Int) ≤ (u.fan_speed : Int) - l.fan_speed := by omega
  have e1 : wrapI32 (temp - l.temp) = temp - l.temp := wrapI32_eq (by omega) (by omega)
  have e2 : wrapI32 (u.temp - l.temp) = u.temp - l.temp := wrapI32_eq (by omega) (by omega)
  have e3 : ((u.fan_speed : Int) - (l.fan_speed : Int)) % 256
      = (u.fan_speed : Int) - (l.fan_speed : Int) := Int.emod_eq_of_lt hup0 (by omega)
  have hq0 : (0 : Int)
      ≤ (temp - l.temp) * ((u.fan_speed : Int) - l.fan_speed) / (u.temp - l.temp) :=
    Int.ediv_nonneg (mul_nonneg hn0 hup0) (le_of_lt hd0)
  have hqle : (temp - l.temp) * ((u.fan_speed : Int) - l.fan_speed) / (u.temp - l.temp)
      ≤ (u.fan_speed : Int) - l.fan_speed := by
    calc (temp - l.temp) * ((u.fan_speed : Int) - l.fan_speed) / (u.temp - l.temp)
        ≤ (u.temp - l.temp) * ((u.fan_speed : Int) - l.fan_speed) / (u.temp - l.temp) :=
          Int.ediv_le_ediv hd0 (mul_le_mul_of_nonneg_right (by omega) hup0)
      _ = (u.fan_speed : Int) - l.fan_speed :=
          Int.mul_ediv_cancel_left _ (ne_of_gt hd0)
  have hmain : (lerpWindow temp l u : Int)
      = (temp - l.temp) * ((u.fan_speed : Int) - l.fan_speed) / (u.temp - l.temp)
          + l.fan_speed := by
    simp only [lerpWindow, e1, e2, e3]
    rw [Int.tdiv_eq_ediv (mul_nonneg hn0 hup0) (le_of_lt hd0)]
    exact wrap8_eq (by omega) (by omega)
  refine ⟨hmain, ?_, ?_⟩
  · have : (l.fan_speed : Int) ≤ (lerpWindow temp l u : Int) := by rw [hmain]; omega
    exact_mod_cast this
  · have : (lerpWindow temp l u : Int) ≤ (u.fan_speed : Int) := by rw [hmain]; omega
    exact_mod_cast this

/-- `lerpWindow` is monotone in the temperature inside one wrap-free window. -/
theorem lerpWindow_mono {t1 t2 : Int} {l u : Point}
    (h1 : l.temp ≤ t1) (h12 : t1 ≤ t2) (h2 : t2 < u.temp)
    (hspan : u.temp - l.temp < 2 ^ 31)
    (hmono : l.fan_speed ≤ u.fan_speed) (hu : u.fan_speed < 256) :
    lerpWindow t1 l u ≤ lerpWindow t2 l u := by
  have e1 := (lerpWindow_eval h1 (lt_of_le_of_lt h12 h2) hspan hmono hu).1
  have e2 := (lerpWindow_eval (le_trans h1 h12) h2 hspan hmono hu).1
  have hup0 : (0 : Int) ≤ (u.fan_speed : Int) - l.fan_speed := by
    have : (l.fan_speed : Int) ≤ u.fan_speed := by exact_mod_cast hmono
    omega
  have hd0 : (0 : Int) < u.temp - l.temp := by omega
  have hq : (t1 - l.temp) * ((u.fan_speed : Int) - l.fan_speed) / (u.temp - l.temp)
      ≤ (t2 - l.temp) * ((u.fan_speed : Int) - l.fan_speed) / (u.temp - l.temp) :=
    Int.ediv_le_ediv hd0 (mul_le_mul_of_nonneg_right (by omega) hup0)
  have : (lerpWindow t1 l u : Int) ≤ (lerpWindow t2 l u : Int) := by
    rw [e1, e2]; omega
  exact_mod_cast this

theorem curve_lerp_head_lt {temp : Int} {p : Point} {rest : List Point}
    (h : temp < p.temp) : curve_lerp temp (p :: rest) = some p.fan_speed := by
  simp [curve_lerp, h]

theorem curve_lerp_single (temp : Int) (p : Point) :
    curve_lerp temp [p] = some p.fan_speed := by
  by_cases h : temp < p.temp <;> simp [curve_lerp, findWin, lastPoint, h]

theorem curve_lerp_window_head {temp : Int} {p q : Point} {rest : List Point}
    (h1 : p.temp ≤ temp) (h2 : temp < q.temp) :
    curve_lerp temp (p :: q :: rest) = some (lerpWindow temp p q) := by
  simp [curve_lerp, findWin, h1, h2, not_lt.mpr h1]

theorem curve_lerp_cons_ge {temp : Int} {p q : Point} {rest : List Point}
    (hpq : p.temp ≤ q.temp) (hq : q.temp ≤ temp) :
    curve_lerp temp (p :: q :: rest) = curve_lerp temp (q :: rest) := by
  have hp : ¬ temp < p.temp := by omega
  have hq2 : ¬ temp < q.temp := by omega
  have hguard : ¬ (p.temp ≤ temp ∧ temp < q.temp) := by omega
  cases hfw : findWin temp (q :: rest) with
  | none => simp [curve_lerp, findWin, hp, hq2, hguard, hfw, lastPoint]
  | some pr => simp [curve_lerp, findWin, hp, hq2, hguard, hfw, lastPoint]

theorem curve_lerp_ge_last {temp : Int} :
    ∀ (rest : List Point) (p : Point), sortedTemps (p :: rest) = true →
      (lastPoint p rest).temp ≤ temp →
      curve_lerp temp (p :: rest) = some (lastPoint p rest).fan_speed := by
  intro rest
  induction rest with
  | nil => intro p _ _; exact curve_lerp_single temp p
  | cons q rest' ih =>
    intro p hsorted hlast
    have h1 := consecOk_head hsorted
    simp only [decide_eq_true_eq] at h1
    have htail := consecOk_tail hsorted
    have hql : q.temp ≤ (lastPoint q rest').temp := sorted_le_lastPoint htail
    simp only [lastPoint] at hlast ⊢
    rw [curve_lerp_cons_ge (le_of_lt h1) (le_trans hql hlast)]
    exact ih q htail hlast

theorem curve_lerp_window_at {temp : Int} {l u : Point} :
    ∀ (pre : List Point) {suf : List Point},
      sortedTemps (pre ++ l :: u :: suf) = true →
      l.temp ≤ temp → temp < u.temp →
      curve_lerp temp (pre ++ l :: u :: suf) = some (lerpWindow temp l u) := by
  intro pre
  induction pre with
  | nil => intro suf _ h1 h2; exact curve_lerp_window_head h1 h2
  | cons x pre' ih =>
    intro suf hsorted h1 h2
    cases pre' with
    | nil =>
      have hxl : (decide (x.temp < l.temp)) = true :=
        consecOk_head (R := fun p q => decide (p.temp < q.temp)) hsorted
      simp only [decide_eq_true_eq] at hxl
      show curve_lerp temp (x :: l :: u :: suf) = some (lerpWindow temp l u)
      rw [curve_lerp_cons_ge (le_of_lt hxl) h1]
      exact curve_lerp_window_head h1 h2
    | cons y pre'' =>
      have hxy : (decide (x.temp < y.temp)) = true :=
        consecOk_head (R := fun p q => decide (p.temp < q.temp)) hsorted
      simp only [decide_eq_true_eq] at hxy
      have htail : sortedTemps (y :: pre'' ++ l :: u :: suf) = true := consecOk_tail hsorted
      have hyl : y.temp ≤ l.temp := sorted_head_le pre'' htail
      show curve_lerp temp (x :: (y :: pre'') ++ l :: u :: suf) = some (lerpWindow temp l u)
      rw [show (x :: (y :: pre'')) ++ l :: u :: suf
            = x :: y :: (pre'' ++ l :: u :: suf) from rfl]
      rw [curve_lerp_cons_ge (le_of_lt hxy) (le_trans hyl h1)]
      exact ih htail h1 h2

/-- C4 fails as stated: with a decreasing fan-speed window the `u8`
subtraction in `curve_lerp` wraps, so the result differs from the spec's
formula.  Curve `[(0,100),(10,50)]` satisfies the data-model invariant
(non-empty, strictly increasing temperatures), yet at `temp = 5` the code
yields `203` where the claimed formula yields `75`. -/
theorem C4_counterexample :
    sortedTemps [⟨0, 100⟩, ⟨10, 50⟩] = true
      ∧ pwmBounded [⟨0, 100⟩, ⟨10, 50⟩] = true
      ∧ curve_lerp 5 [⟨0, 100⟩, ⟨10, 50⟩] = some 203
      ∧ spec_window 5 ⟨0, 100⟩ ⟨10, 50⟩ = 75
      ∧ (203 : Nat) ≠ (spec_window 5 ⟨0, 100⟩ ⟨10, 50⟩).toNat := by
  refine ⟨by decide, by decide, by decide, by decide, by decide⟩

/-- C4 (amended): for a curve satisfying the data-model invariant whose fan
speeds are additionally non-decreasing `u8` values and whose consecutive
temperature gaps fit in `i32`, `curve_lerp` returns `P0.pwm` below the first
point, the last point's pwm at or above the last point, and the spec's
truncating interpolation formula inside the unique bracketing window. -/
theorem C4_curve_lerp_cases (curve : List Point) (p0 : Point) (rest : List Point)
    (hcurve : curve = p0 :: rest)
    (hsorted : sortedTemps curve = true) (hmono : monoPwm curve = true)
    (hspan : spansOk curve = true) (hpwm : pwmBounded curve = true) (temp : Int) :
    (temp < p0.temp → curve_lerp temp curve = some p0.fan_speed)
    ∧ ((lastPoint p0 rest).temp ≤ temp →
        curve_lerp temp curve = some (lastPoint p0 rest).fan_speed)
    ∧ (∀ pre l u suf, curve = pre ++ l :: u :: suf → l.temp ≤ temp → temp < u.temp →
        curve_lerp temp curve = some (spec_window temp l u).toNat) := by
  subst hcurve
  refine ⟨fun h => curve_lerp_head_lt h, fun h => curve_lerp_ge_last rest p0 hsorted h, ?_⟩
  intro pre l u suf hdecomp h1 h2
  rw [hdecomp] at hsorted hmono hspan hpwm ⊢
  have hml : l.fan_speed ≤ u.fan_speed := by
    simpa using consecOk_pair (R := fun p q => decide (p.fan_speed ≤ q.fan_speed)) pre hmono
  have hsp : u.temp - l.temp < 2 ^ 31 := by
    simpa using consecOk_pair (R := fun p q => decide (q.temp - p.temp < 2 ^ 31)) pre hspan
  have hu256 : u.fan_speed < 256 := pwmBounded_mem hpwm (by simp)
  rw [curve_lerp_window_at pre hsorted h1 h2]
  have heval := (lerpWindow_eval h1 h2 hsp hml hu256).1
  have hupint : (l.fan_speed : Int) ≤ u.fan_speed := by exact_mod_cast hml
  have hspecint : (lerpWindow temp l u : Int) = spec_window temp l u := by
    rw [heval]
    unfold spec_window
    rw [Int.tdiv_eq_ediv (mul_nonneg (by omega) (by omega)) (by omega)]
    exact add_comm _ _
  have : lerpWindow temp l u = (spec_window temp l u).toNat := by omega
  rw [this]

/-- Every curve value is at least the head point's fan speed (wrap-free,
non-decreasing curves). -/
theorem curve_lerp_lb :
    ∀ (rest : List Point) (q : Point), sortedTemps (q :: rest) = true →
      monoPwm (q :: rest) = true → spansOk (q :: rest) = true →
      pwmBounded (q :: rest) = true →
      ∀ (t : Int) (v : Nat), curve_lerp t (q :: rest) = some v → q.fan_speed ≤ v := by
  intro rest
  induction rest with
  | nil =>
    intro q _ _ _ _ t v hv
    rw [curve_lerp_single] at hv
    have := Option.some.inj hv
    omega
  | cons r rest' ih =>
    intro q hs hm hsp hb t v hv
    have hqr : q.temp < r.temp := by simpa using consecOk_head hs
    have hqrf : q.fan_speed ≤ r.fan_speed := by simpa using consecOk_head hm
    have hspr : r.temp - q.temp < 2 ^ 31 := by simpa using consecOk_head hsp
    have hr256 : r.fan_speed < 256 := pwmBounded_mem hb (by simp)
    by_cases h1 : t < q.temp
    · rw [curve_lerp_head_lt h1] at hv
      have := Option.some.inj hv
      omega
    · push_neg at h1
      by_cases h2 : t < r.temp
      · rw [curve_lerp_window_head h1 h2] at hv
        have := Option.some.inj hv
        have := (lerpWindow_eval h1 h2 hspr hqrf hr256).2.1
        omega
      · push_neg at h2
        rw [curve_lerp_cons_ge (le_of_lt hqr) h2] at hv
        exact le_trans hqrf (ih r (consecOk_tail hs) (consecOk_tail hm)
          (consecOk_tail hsp) (pwmBounded_tail hb) t v hv)

theorem curve_lerp_mono_aux :
    ∀ (curve : List Point), sortedTemps curve = true → strictPwm curve = true →
      spansOk curve = true → pwmBounded curve = true →
      ∀ (t1 t2 : Int), t1 < t2 → ∀ (v1 v2 : Nat),
        curve_lerp t1 curve = some v1 → curve_lerp t2 curve = some v2 → v1 ≤ v2 := by
  intro curve
  induction curve with
  | nil => intro _ _ _ _ t1 t2 _ v1 v2 e1 _; simp [curve_lerp] at e1
  | cons p rest ih =>
    intro hsorted hstrict hspan hpwm t1 t2 h12 v1 v2 e1 e2
    cases rest with
    | nil =>
      rw [curve_lerp_single] at e1 e2
      have := Option.some.inj e1
      have := Option.some.inj e2
      omega
    | cons q rest' =>
      have hm := strictPwm_mono hstrict
      have hpq : p.temp < q.temp := by simpa using consecOk_head hsorted
      have hpf : p.fan_speed ≤ q.fan_speed := by simpa using consecOk_head hm
      have hsp1 : q.temp - p.temp < 2 ^ 31 := by simpa using consecOk_head hspan
      have hq256 : q.fan_speed < 256 := pwmBounded_mem hpwm (by simp)
      by_cases ha : t2 < p.temp
      · rw [curve_lerp_head_lt (lt_trans h12 ha)] at e1
        rw [curve_lerp_head_lt ha] at e2
        have := Option.some.inj e1
        have := Option.some.inj e2
        omega
      · push_neg at ha
        by_cases hb : t2 < q.temp
        · rw [curve_lerp_window_head ha hb] at e2
          have hv2 := Option.some.inj e2
          by_cases hc : t1 < p.temp
          · rw [curve_lerp_head_lt hc] at e1
            have hv1 := Option.some.inj e1
            have := (lerpWindow_eval ha hb hsp1 hpf hq256).2.1
            omega
          · push_neg at hc
            rw [curve_lerp_window_head hc (lt_trans h12 hb)] at e1
            have hv1 := Option.some.inj e1
            have := lerpWindow_mono hc (le_of_lt h12) hb hsp1 hpf hq256
            omega
        · push_neg at hb
          rw [curve_lerp_cons_ge (le_of_lt hpq) hb] at e2
          by_cases hc : t1 < q.temp
          · have hlb : q.fan_speed ≤ v2 :=
              curve_lerp_lb rest' q (consecOk_tail hsorted) (consecOk_tail hm)
                (consecOk_tail hspan) (pwmBounded_tail hpwm) t2 v2 e2
            by_cases hd : t1 < p.temp
            · rw [curve_lerp_head_lt hd] at e1
              have := Option.some.inj e1
              omega
            · push_neg at hd
              rw [curve_lerp_window_head hd hc] at e1
              have hv1 := Option.some.inj e1
              have := (lerpWindow_eval hd hc hsp1 hpf hq256).2.2
              omega
          · push_neg at hc
            rw [curve_lerp_cons_ge (le_of_lt hpq) hc] at e1
            exact ih (consecOk_tail hsorted) (consecOk_tail hstrict) (consecOk_tail hspan)
              (pwmBounded_tail hpwm) t1 t2 h12 v1 v2 e1 e2

/-- C7 is false as stated: for the strictly increasing curve
`[(-2^31, 0), (2^31 - 1, 255)]` the `i32` window-width subtraction in
`curve_lerp` wraps to `-1`, and the result is not monotone: it is `255`
at `temp = 255` but `0` at `temp = 256`. -/
theorem C7_counterexample :
    sortedTemps [⟨-(2 ^ 31), 0⟩, ⟨2 ^ 31 - 1, 255⟩] = true
      ∧ strictPwm [⟨-(2 ^ 31), 0⟩, ⟨2 ^ 31 - 1, 255⟩] = true
      ∧ pwmBounded [⟨-(2 ^ 31), 0⟩, ⟨2 ^ 31 - 1, 255⟩] = true
      ∧ (255 : Int) < 256
      ∧ curve_lerp 255 [⟨-(2 ^ 31), 0⟩, ⟨2 ^ 31 - 1, 255⟩] = some 255
      ∧ curve_lerp 256 [⟨-(2 ^ 31), 0⟩, ⟨2 ^ 31 - 1, 255⟩] = some 0
      ∧ ¬ (255 ≤ (0 : Nat)) := by
  refine ⟨by decide, by decide, by decide, by decide, by decide, by decide, by decide⟩

/-- C7 (amended): for a curve with strictly increasing temperatures and
strictly increasing `u8` fan speeds whose consecutive temperature gaps fit
in `i32`, `curve_lerp` is monotone in the temperature. -/
theorem C7_curve_lerp_monotone (curve : List Point)
    (hsorted : sortedTemps curve = true) (hstrict : strictPwm curve = true)
    (hspan : spansOk curve = true) (hpwm : pwmBounded curve = true)
    (t1 t2 : Int) (h12 : t1 < t2) (v1 v2 : Nat)
    (e1 : curve_lerp t1 curve = some v1) (e2 : curve_lerp t2 curve = some v2) :
    v1 ≤ v2 :=
  curve_lerp_mono_aux curve hsorted hstrict hspan hpwm t1 t2 h12 v1 v2 e1 e2

/-- Witness for C7 at the curve `[(30000,51),(60000,204)]` and the pair of
temperatures `35000 < 45000`. -/
theorem C7_curve_lerp_monotone_witness : (76 : Nat) ≤ 127 :=
  C7_curve_lerp_monotone [⟨30000, 51⟩, ⟨60000, 204⟩] (by decide) (by decide) (by decide)
    (by decide) 35000 45000 (by decide) 76 127 (by decide) (by decide)

/-- Witness for C4 at the spec's worked example: curve
`[(30000,51),(60000,204)]` at `temp = 45000` gives `127`. -/
theorem C4_curve_lerp_cases_witness :
    curve_lerp 45000 [⟨30000, 51⟩, ⟨60000, 204⟩] = some 127 := by
  have h := (C4_curve_lerp_cases [⟨30000, 51⟩, ⟨60000, 204⟩] ⟨30000, 51⟩ [⟨60000, 204⟩]
    rfl (by decide) (by decide) (by decide) (by decide) 45000).2.2
    [] ⟨30000, 51⟩ ⟨60000, 204⟩ [] rfl (by decide) (by decide)
  exact h.trans (by decide)

/-! ## Rate-limiter lemmas (C5, C6) -/

theorem state_thresh_nonneg (pct : Nat) : 0 ≤ state_thresh pct :=
  Int.tdiv_nonneg (mul_nonneg (Int.natCast_nonneg _) (by norm_num)) (by norm_num)

/-- C5: whenever the rate limiter decides to write, the written value is
`current + delta` with `delta` clamped to `max_change` preserving the sign
of `target - current`, so it differs from the current speed read that tick
by at most `max_change`; the thresholds are the percent conversions of
`State::new`. -/
theorem C5_rate_limit_clamped (pct_min pct_max : Nat) (target current : Nat)
    (ht : target ≤ 255) (hc : current ≤ 255) (w : Nat)
    (hw : rate_limit (state_thresh pct_min) (state_thresh pct_max)
            (target : Int) (current : Int) = .write w) :
    |(w : Int) - (current : Int)| ≤ state_thresh pct_max
    ∧ (w : Int) = (current : Int) +
        (if 0 < (target : Int) - (current : Int)
          then min ((target : Int) - (current : Int)) (state_thresh pct_max)
          else max ((target : Int) - (current : Int)) (-(state_thresh pct_max))) := by
  have hm0 := state_thresh_nonneg pct_min
  have hM0 := state_thresh_nonneg pct_max
  have ht' : (target : Int) ≤ 255 := by exact_mod_cast ht
  have hc' : (current : Int) ≤ 255 := by exact_mod_cast hc
  have ht0 : (0 : Int) ≤ target := Int.natCast_nonneg _
  have hc0 : (0 : Int) ≤ current := Int.natCast_nonneg _
  unfold rate_limit at hw
  by_cases hg : ¬ ((target : Int) - current > state_thresh pct_min
      ∨ (target : Int) - current < -state_thresh pct_min)
  · rw [if_pos hg] at hw
    exact absurd hw (by simp)
  · rw [if_neg hg] at hw
    push_neg at hg
    rcases hg with hpos | hneg
    · have h0 : (0 : Int) < (target : Int) - current := by omega
      have hs : ((target : Int) - current).sign = 1 := Int.sign_eq_one_iff_pos.mpr h0
      rw [if_pos hs] at hw
      have hmax : max ((target : Int) - current) 0 = (target : Int) - current :=
        max_eq_left (le_of_lt h0)
      rw [hmax] at hw
      have hle1 : min ((target : Int) - current) (state_thresh pct_max)
          ≤ (target : Int) - current := min_le_left _ _
      have hle2 : min ((target : Int) - current) (state_thresh pct_max)
          ≤ state_thresh pct_max := min_le_right _ _
      have hge : 0 ≤ min ((target : Int) - current) (state_thresh pct_max) :=
        le_min (le_of_lt h0) hM0
      have hw8 : (wrap8 ((current : Int)
            + min ((target : Int) - current) (state_thresh pct_max)) : Int)
          = (current : Int) + min ((target : Int) - current) (state_thresh pct_max) :=
        wrap8_eq (by omega) (by omega)
      have hww : w = wrap8 ((current : Int)
          + min ((target : Int) - current) (state_thresh pct_max)) :=
        (WriteDecision.write.inj hw).symm
      rw [hww, hw8, if_pos h0]
      rw [abs_le]
      constructor
      · constructor <;> omega
      · rfl
    · have h0 : (target : Int) - current < 0 := by omega
      have hs : ((target : Int) - current).sign = -1 := Int.sign_eq_neg_one_iff_neg.mpr h0
      have hs1 : ¬ ((target : Int) - current).sign = 1 := by rw [hs]; decide
      rw [if_neg hs1, if_pos hs] at hw
      have h1 : (target : Int) - current
          ≤ max ((target : Int) - current) (-state_thresh pct_max) := le_max_left _ _
      have h2 : -state_thresh pct_max
          ≤ max ((target : Int) - current) (-state_thresh pct_max) := le_max_right _ _
      have h3 : max ((target : Int) - current) (-state_thresh pct_max) ≤ 0 :=
        max_le (le_of_lt h0) (by omega)
      have hmin : min (max ((target : Int) - current) (-state_thresh pct_max)) 0
          = max ((target : Int) - current) (-state_thresh pct_max) := min_eq_left h3
      rw [hmin] at hw
      have hw8 : (wrap8 ((current : Int)
            + max ((target : Int) - current) (-state_thresh pct_max)) : Int)
          = (current : Int) + max ((target : Int) - current) (-state_thresh pct_max) :=
        wrap8_eq (by omega) (by omega)
      have hww : w = wrap8 ((current : Int)
          + max ((target : Int) - current) (-state_thresh pct_max)) :=
        (WriteDecision.write.inj hw).symm
      rw [hww, hw8, if_neg (by omega : ¬ (0 : Int) < (target : Int) - current)]
      rw [abs_le]
      constructor
      · constructor <;> omega
      · rfl

/-- Witness for C5: with thresholds `5%` and `10%` (`12` and `25` on the
0-255 scale), target `127` and current `50`, the limiter writes `75`. -/
theorem C5_rate_limit_clamped_witness :
    |((75 : Nat) : Int) - ((50 : Nat) : Int)| ≤ state_thresh 10
    ∧ ((75 : Nat) : Int) = ((50 : Nat) : Int) +
        (if 0 < ((127 : Nat) : Int) - ((50 : Nat) : Int)
          then min (((127 : Nat) : Int) - ((50 : Nat) : Int)) (state_thresh 10)
          else max (((127 : Nat) : Int) - ((50 : Nat) : Int)) (-(state_thresh 10))) :=
  C5_rate_limit_clamped 5 10 127 50 (by decide) (by decide) 75 (by decide)

/-- C6: when the lerp target and the speed read this tick differ by no more
than `min_change` (equality counts as too small), the limiter declines and
the fan's tick leaves the file system untouched: no write occurs. -/
theorem C6_dead_band (st : State) (temps : List (String × Int)) (fs : FS)
    (name : String) (fan_cfg : Fan) (input_temp : Int) (curve : List Point)
    (target current : Nat) (fan : ControlledFan)
    (h1 : temps.lookup fan_cfg.input = some input_temp)
    (h2 : st.curves.lookup fan_cfg.curve = some curve)
    (h3 : curve_lerp input_temp curve = some target)
    (h4 : st.fans.lookup name = some fan)
    (h5 : fan.get_speed fs = .ok current)
    (hsmall : |(target : Int) - (current : Int)| ≤ st.min_change) :
    rate_limit st.min_change st.max_change (target : Int) (current : Int) = .noWrite
    ∧ fan_tick st temps fs name fan_cfg = .ok fs := by
  have hcond : ¬ ((target : Int) - current > st.min_change
      ∨ (target : Int) - current < -st.min_change) := by
    rw [abs_le] at hsmall
    push_neg
    constructor <;> omega
  have hrl : rate_limit st.min_change st.max_change (target : Int) (current : Int)
      = .noWrite := by
    unfold rate_limit
    rw [if_pos hcond]
  refine ⟨hrl, ?_⟩
  simp only [fan_tick, h1, h2, h3, h4, h5, hrl]

/-- Witness for C6: target `127`, current `125`, `min_change = 12`: no
write happens. -/
theorem C6_dead_band_witness :
    rate_limit stC6.min_change stC6.max_change ((127 : Nat) : Int) ((125 : Nat) : Int)
        = .noWrite
    ∧ fan_tick stC6 [("t", 5)] fsC6 "f" ⟨⟨"x", 1⟩, "t", "c"⟩ = .ok fsC6 :=
  C6_dead_band stC6 [("t", 5)] fsC6 "f" ⟨⟨"x", 1⟩, "t", "c"⟩ 5 [⟨0, 127⟩] 127 125 ⟨"/p", 2⟩
    (by decide) (by decide) (by decide) (by decide) (by rfl) (by decide)

/-! ## Fan-handle lifecycle (C8) -/

theorem lookup_updateAssoc (l : List (String × String)) (p v : String)
    (h : (l.lookup p).isSome = true) : (updateAssoc l p v).lookup p = some v := by
  induction l with
  | nil => simp [List.lookup] at h
  | cons kv rest ih =>
    obtain ⟨k, w⟩ := kv
    by_cases hk : k = p
    · subst hk
      simp [updateAssoc, List.lookup]
    · have hk1 : (k == p) = false := beq_eq_false_iff_ne.mpr hk
      have hk2 : (p == k) = false := beq_eq_false_iff_ne.mpr (Ne.symm hk)
      simp only [updateAssoc, hk1, Bool.false_eq_true, if_false, List.lookup, hk2] at h ⊢
      exact ih h

theorem read_after_write {fs fs' : FS} {p v : String}
    (h : fs.write p v = some fs') : fs'.read p = some v := by
  unfold FS.write at h
  by_cases hex : (fs.files.lookup p).isSome = true
  · rw [if_pos hex] at h
    injection h with h
    subst h
    exact lookup_updateAssoc fs.files p v hex
  · rw [if_neg hex] at h
    exact Option.noConfusion h

/-- C8: a fan handle's construction reads and saves the parsed integer of
`pwmN_enable` as `initial_mode` and then writes `1` to that file; its drop
writes the saved mode back, and is total — a failed restore write leaves
the file system unchanged instead of propagating an error. -/
theorem C8_fan_enable_lifecycle (fs : FS) (p s : String) (m : Nat)
    (fan : ControlledFan) (fs₁ : FS)
    (hread : fs.read (p ++ "_enable") = some s)
    (hm : parseU8 (rustTrim s) = some m)
    (hnew : ControlledFan.new fs p = .ok (fan, fs₁)) :
    fan.pwm_path = p ∧ fan.initial_mode = m
    ∧ fs₁.read (p ++ "_enable") = some "1\n"
    ∧ ∀ fs₂, ControlledFan.drop fan fs₂ =
        match fs₂.write (p ++ "_enable") (toString m ++ "\n") with
        | some fs₃ => fs₃
        | none => fs₂ := by
  simp only [ControlledFan.new, hread, hm] at hnew
  cases hwr : fs.write (p ++ "_enable") "1\n" with
  | none => rw [hwr] at hnew; exact Except.noConfusion hnew
  | some fsw =>
    rw [hwr] at hnew
    injection hnew with h
    injection h with hfan hfs
    subst hfan
    subst hfs
    exact ⟨rfl, rfl, read_after_write hwr, fun fs₂ => rfl⟩

/-- Witness for C8: enable file reads `2`; after construction it holds
`1\n`; the drop restores `2\n`. -/
theorem C8_fan_enable_lifecycle_witness :
    ControlledFan.new fsC8 "gpu_pwm1" = .ok (⟨"gpu_pwm1", 2⟩, fsC8')
    ∧ FS.read fsC8' ("gpu_pwm1" ++ "_enable") = some "1\n"
    ∧ ControlledFan.drop ⟨"gpu_pwm1", 2⟩ fsC8' = fsC8 := by
  have h := C8_fan_enable_lifecycle fsC8 "gpu_pwm1" "2\n" 2 ⟨"gpu_pwm1", 2⟩ fsC8'
    (by decide) (by decide) (by rfl)
  refine ⟨by rfl, h.2.2.1, ?_⟩
  rw [h.2.2.2 fsC8']
  rfl

/-! ## Hwmon name processing (C9) -/

/-- C9 fails as stated: the code removes exactly the final character of the
`name` file instead of trimming trailing whitespace, so contents without a
trailing newline (here `"abc"`) are mangled to `"ab"` rather than kept as
the trimmed `"abc"`. -/
theorem C9_counterexample :
    processHwmonName "abc" = "ab"
    ∧ spec_rtrim "abc" = "abc"
    ∧ processHwmonName "abc" ≠ spec_rtrim "abc" := by
  refine ⟨by decide, by decide, by decide⟩

/-- C9 (amended): the stored hwmon name is the file contents with the final
character removed; when the contents are a whitespace-free name followed by
exactly one newline — the shape sysfs `name` files have — this coincides
with trimming trailing whitespace. -/
theorem C9_hwmon_name_chop (t : String) (h : noTrailingWs t = true) :
    processHwmonName (t ++ "\n") = t ∧ spec_rtrim (t ++ "\n") = t := by
  have hdata : (t ++ ("\n" : String)).data = t.data ++ ['\n'] := by
    rw [String.data_append]
  have hrevcons : (t.data ++ ['\n']).reverse = '\n' :: t.data.reverse := by
    simp
  have hid : t.data.reverse.dropWhile rustIsWs = t.data.reverse := by
    cases hrev : t.data.reverse with
    | nil => rfl
    | cons c rest =>
      have hlast : t.data.getLast? = some c := by
        rw [← List.head?_reverse, hrev]
        rfl
      unfold noTrailingWs at h
      rw [hlast] at h
      simp only [Bool.not_eq_eq_eq_not, Bool.not_true] at h
      simp [List.dropWhile_cons, h]
  constructor
  · show (⟨(t ++ "\n").data.dropLast⟩ : String) = t
    rw [hdata, List.dropLast_concat]
  · show (⟨((t ++ "\n").data.reverse.dropWhile rustIsWs).reverse⟩ : String) = t
    rw [hdata, hrevcons, List.dropWhile_cons, if_pos (by decide : rustIsWs '\n' = true),
      hid, List.reverse_reverse]

/-- Witness for C9 at the name `"amdgpu"` with a single trailing newline. -/
theorem C9_hwmon_name_chop_witness :
    processHwmonName ("amdgpu" ++ "\n") = "amdgpu"
    ∧ spec_rtrim ("amdgpu" ++ "\n") = "amdgpu" :=
  C9_hwmon_name_chop "amdgpu" (by decide)

/-! ## Composites (C1, C3) -/

/-- C1: the `Mean` and `MeanMax` composite modes are unimplemented — the
`todo!()` arm of `main_loop` panics — so a composite with non-empty
resolved inputs `[10, 20]` aborts the tick instead of inserting the
truncating mean `15`; the implemented `Max` mode inserts normally. -/
theorem C1_mean_modes_panic :
    evalComposites [("c", ⟨["a", "b"], .mean⟩)] [("a", 10), ("b", 20)] = .panicked
    ∧ evalComposites [("c", ⟨["a", "b"], .meanMax 15⟩)] [("a", 10), ("b", 20)] = .panicked
    ∧ evalComposites [("c", ⟨["a", "b"], .max⟩)] [("a", 10), ("b", 20)]
        = .ok [("c", 20), ("a", 10), ("b", 20)] := by
  refine ⟨by decide, by decide, by decide⟩

/-- C3: composite evaluation follows the iteration order of the composites
`HashMap`, which is arbitrary and unrelated to declaration order.  With
`A = max(s)` and `B = max(A)` (A declared before B), iterating `[A, B]`
hands `B` the value of `A`, while the equally possible iteration `[B, A]`
finds no input for `B` and drops it: `B` does not receive `A`'s value even
though `A` is declared first. -/
theorem C3_iteration_order_dependent :
    evalComposites [("A", ⟨["s"], .max⟩), ("B", ⟨["A"], .max⟩)] [("s", 10)]
        = .ok [("B", 10), ("A", 10), ("s", 10)]
    ∧ evalComposites [("B", ⟨["A"], .max⟩), ("A", ⟨["s"], .max⟩)] [("s", 10)]
        = .ok [("A", 10), ("s", 10)]
    ∧ (([("A", 10), ("s", 10)] : List (String × Int)).lookup "B" = none
        ∧ ([("B", 10), ("A", 10), ("s", 10)] : List (String × Int)).lookup "B"
            = some 10) := by
  refine ⟨by decide, by decide, by decide, by decide⟩

/-! ## Supervisor (C2) -/

/-- C2: with the reload flag set and a failing `Config::load`, the
iteration keeps the existing state, but the `continue` skips the rest of
the loop body: the reload flag is NOT cleared and NO tick runs — the next
iteration immediately retries the load instead. -/
theorem C2_reload_failure_keeps_flag_skips_tick (fs : FS) (e : Error) (st : State) :
    supervisor_iter fs (.error e) true st = .skipped st true := rfl

/-! ## Fan-map key preservation (C10) -/

theorem find_fans_keys (hwmon_names : List String) :
    ∀ (l : List (String × Fan)) (fs : FS) (m : List (String × ControlledFan)) (fs' : FS),
      find_fans fs hwmon_names l = .ok m fs' → m.map Prod.fst = l.map Prod.fst := by
  intro l
  induction l with
  | nil =>
    intro fs m fs' h
    simp only [find_fans] at h
    injection h with h1 h2
    rw [← h1]
    rfl
  | cons nf rest ih =>
    intro fs m fs' h
    obtain ⟨name, fan⟩ := nf
    simp only [find_fans] at h
    split at h
    · exact FsResult.noConfusion h
    · split at h
      · exact FsResult.noConfusion h
      · split at h
        · rename_i fsn hnew m2 fs2 hrec
          injection h with h1 h2
          rw [← h1]
          simp only [List.map_cons]
          rw [ih _ _ _ hrec]
        · exact FsResult.noConfusion h
        · exact FsResult.noConfusion h

theorem State_new_fans_keys {fs : FS} {config : Config} {st : State} {fs' : FS}
    (h : State.new fs config = .ok st fs') :
    st.fans.map Prod.fst = config.fans.map Prod.fst ∧ st.config = config := by
  simp only [State.new] at h
  split at h
  · exact FsResult.noConfusion h
  split at h
  · exact FsResult.noConfusion h
  split at h
  · exact FsResult.noConfusion h
  · exact FsResult.noConfusion h
  split at h
  · exact FsResult.noConfusion h
  · exact FsResult.noConfusion h
  split at h
  · exact FsResult.noConfusion h
  injection h with h1 h2
  rw [← h1]
  exact ⟨find_fans_keys _ _ _ _ _ (by assumption), rfl⟩

theorem lookup_isSome_of_keyset {β γ : Type} :
    ∀ (l : List (String × γ)) (m : List (String × β)),
      m.map Prod.fst = l.map Prod.fst → ∀ (name : String) (x : γ),
      (name, x) ∈ l → (m.lookup name).isSome = true := by
  intro l
  induction l with
  | nil =>
    intro m _ name x hmem
    exact absurd hmem (List.not_mem_nil _)
  | cons hd tl ih =>
    intro m hkeys name x hmem
    cases m with
    | nil => simp at hkeys
    | cons mh mt =>
      simp only [List.map_cons, List.cons.injEq] at hkeys
      obtain ⟨hk1, hk2⟩ := hkeys
      by_cases hb : (name == mh.1) = true
      · obtain ⟨k, v⟩ := mh
        simp only [List.lookup, hb]
        rfl
      · rcases List.mem_cons.mp hmem with hcase | hcase
        · exfalso
          apply hb
          have : hd.1 = name := by rw [← hcase]
          rw [beq_iff_eq, hk1, this]
        · obtain ⟨k, v⟩ := mh
          simp only [List.lookup, show (name == k) = false from by simpa using hb]
          exact ih mt hk2 name x hcase

/-- C10: a successful `State::new` yields a fan-handle map with exactly the
configured fan names as keys; every state the supervisor hands to a tick
comes from a successful `State::new`; hence the tick's `unwrap`ped
`state.fans` lookup of a configured fan name always finds a handle. -/
theorem C10_fan_lookup_safe (fs0 : FS) (cfg : Config) (st : State) (fsA : FS)
    (hnew : State.new fs0 cfg = .ok st fsA)
    (fs : FS) (load_result : Except Error Config) (reload : Bool)
    (st2 : State) (r2 : Bool) (res : RunResult FS)
    (hiter : supervisor_iter fs load_result reload st = .tickRan st2 r2 res)
    (name : String) (fan_cfg : Fan) (hmem : (name, fan_cfg) ∈ st2.config.fans) :
    (st2.fans.lookup name).isSome = true := by
  have hkeys : st2.fans.map Prod.fst = st2.config.fans.map Prod.fst := by
    unfold supervisor_iter at hiter
    by_cases hr : reload
    · rw [if_pos hr] at hiter
      cases load_result with
      | error e => exact IterOut.noConfusion hiter
      | ok new_config =>
        simp only at hiter
        split at hiter
        · rename_i new_st fs2 hnew2
          injection hiter with h1 h2 h3
          subst h1
          obtain ⟨hk, hc⟩ := State_new_fans_keys hnew2
          rw [hk, hc]
        · exact IterOut.noConfusion hiter
        · split at hiter
          · rename_i rev_st fs3 hnew3
            injection hiter with h1 h2 h3
            subst h1
            obtain ⟨hk, hc⟩ := State_new_fans_keys hnew3
            rw [hk, hc]
          · exact IterOut.noConfusion hiter
          · exact IterOut.noConfusion hiter
    · rw [if_neg hr] at hiter
      injection hiter with h1 h2 h3
      subst h1
      obtain ⟨hk, hc⟩ := State_new_fans_keys hnew
      rw [hk, hc]
  exact lookup_isSome_of_keyset st2.config.fans st2.fans hkeys name fan_cfg hmem

/-- Witness for C10: on the one-fan fixture, `State::new` succeeds and a
no-reload iteration ticks on that state, whose handle for `"f1"` exists. -/
theorem C10_fan_lookup_safe_witness : (stC10.fans.lookup "f1").isSome = true :=
  C10_fan_lookup_safe fsC10 cfgC10 stC10 fsC10' (by decide)
    fsC10' (.ok cfgC10) false stC10 false (tick stC10 fsC10') rfl
    "f1" ⟨⟨"amdgpu", 1⟩, "t", "c"⟩ (by decide)
